import Mathlib

/-!
Verification of the data-preparation pipeline of the saliency repository
(src/data.py and src/main.py): file-list consistency checking, dataset
partitioning, the resize/pad/crop geometry engine, the video batch pipeline,
and the inference loop. Each Python function named below is shallowly
embedded as an executable Lean definition translated from the source;
real (float) arithmetic in the geometry code is modelled exactly over ℚ,
with `np.round` (round half to even) modelled by `roundHalfEven`.
-/

set_option maxRecDepth 4000

/-- Errors raised by the Python code paths that the embedding models:
`assertionError` for a failed `assert`, `typeError` for a call with missing
required positional arguments, `fileNotFound` for `FileNotFoundError`,
and `valueError` for `ValueError` (e.g. `np.stack` of an empty list). -/
inductive PyError
  | assertionError (msg : String)
  | typeError (msg : String)
  | fileNotFound (msg : String)
  | valueError (msg : String)
deriving DecidableEq

/-- Characters after the last path separator, as in `os.path.basename`
(left fold that restarts the accumulated segment at each slash). -/
def pyBasenameChars (cs : List Char) : List Char :=
  cs.foldl (fun acc c => if c = '/' then [] else acc ++ [c]) []

/-- Index of the last dot in a character list, if any. -/
def lastDotIdx (cs : List Char) : Option Nat :=
  ((cs.enum.filter (fun p => decide (p.2 = '.'))).map Prod.fst).getLast?

/-- Root part of `os.path.splitext` applied to a basename: the extension is
split off at the last dot, unless every character before that dot is itself
a dot (the CPython leading-dots rule, so ".bashrc" keeps its name). -/
def pySplitextRootChars (cs : List Char) : List Char :=
  match lastDotIdx cs with
  | none => cs
  | some i => if (cs.take i).any (fun c => decide (c ≠ '.')) then cs.take i else cs

/-- Fuel-driven worker for `pyRemoveAll`: removes every leftmost,
non-overlapping occurrence of `pat`, scanning left to right as Python
`str.replace(pat, "")` does. The fuel is the length of the scanned list,
enough because every step consumes at least one character. -/
def removeAllAux (pat : List Char) : Nat → List Char → List Char
  | 0, cs => cs
  | _ + 1, [] => []
  | fuel + 1, c :: cs =>
      if pat.isPrefixOf (c :: cs) then removeAllAux pat fuel ((c :: cs).drop pat.length)
      else c :: removeAllAux pat fuel cs

/-- Python `s.replace(pat, "")` for a non-empty pattern; an empty pattern
leaves the string unchanged (replacing by the empty string inserts nothing). -/
def pyRemoveAll (s pat : String) : String :=
  if pat.toList.isEmpty then s
  else String.mk (removeAllAux pat.toList s.toList.length s.toList)

/-- Name reduction of `_check_consistency` (src/data.py lines 622-625):
strip the directory and extension, then remove the `_fixMap` and `_fixPts`
ground-truth suffix markers. -/
def stripName (s : String) : String :=
  let base := String.mk (pyBasenameChars s.toList)
  let root := String.mk (pySplitextRootChars base.toList)
  pyRemoveAll (pyRemoveAll root "_fixMap") "_fixPts"

/-- Name check for one stimulus/ground-truth pair of `_check_consistency`:
`assert len(set(file_names)) == 1` on the reduced names. -/
def checkNameTuple (ft : String × String) : Except PyError Unit :=
  if ([ft.1, ft.2].map stripName).dedup.length = 1 then Except.ok ()
  else Except.error (PyError.assertionError "File name mismatch")

/-- `_check_consistency` (src/data.py lines 610-627). Its argument is the
`zip` iterator produced by the callers; `len(list(zipped_file_lists))` in the
count assertion consumes that iterator, so the subsequent `for` loop iterates
over the already exhausted iterator and the name check runs zero times. The
count compared against `n_total_files` is therefore the number of zipped
pairs. -/
def checkConsistency (zipped : List (String × String)) (nTotal : Nat) :
    Except PyError Unit := do
  if zipped.length = nTotal then pure ()
  else throw (PyError.assertionError "Files are missing")
  ([] : List (String × String)).forM checkNameTuple

/-- Spatial dimensions (height, width) of an image, in pixels. -/
structure ImgSize where
  height : Nat
  width : Nat
deriving DecidableEq

/-- Rounding half to even, the behaviour of `np.round` / `tf.round` used by
`_resize_image` to turn the scaled floating-point dimensions into integers. -/
def roundHalfEven (q : ℚ) : ℤ :=
  if q - ⌊q⌋ < 1/2 then ⌊q⌋
  else if 1/2 < q - ⌊q⌋ then ⌊q⌋ + 1
  else if ⌊q⌋ % 2 = 0 then ⌊q⌋ else ⌊q⌋ + 1

/-- The output dimensions computed by `_resize_image` (src/data.py lines
430-453), identical in the numpy and the tensorflow paths: per-axis ratios of
target over current size, the minimum ratio when shrinking to fit
(`overfull=False`) or the maximum when growing to cover (`overfull=True`),
then each current dimension scaled and rounded. Real arithmetic is modelled
exactly over ℚ. -/
def resizeNewSize (cur target : ImgSize) (overfull : Bool) : ImgSize :=
  let heightRat : ℚ := (target.height : ℚ) / (cur.height : ℚ)
  let widthRat : ℚ := (target.width : ℚ) / (cur.width : ℚ)
  let targetRat : ℚ := if overfull then max heightRat widthRat else min heightRat widthRat
  { height := (roundHalfEven ((cur.height : ℚ) * targetRat)).toNat,
    width := (roundHalfEven ((cur.width : ℚ) * targetRat)).toNat }

/-- The two interpolation families `_resize_image` chooses between. -/
inductive InterpMethod
  | area
  | cubic
deriving DecidableEq

/-- Interpolation choice of the numpy path of `_resize_image` (src/data.py
lines 440-449): the computed size is swapped to (width, height) order for
`cv2.resize` before the comparison, so the branch compares the current height
against the new width and the current width against the new height. -/
def npResizeInterp (cur target : ImgSize) (overfull : Bool) : InterpMethod :=
  let ns := resizeNewSize cur target overfull
  if cur.height > ns.width ∨ cur.width > ns.height then InterpMethod.area
  else InterpMethod.cubic

/-- Interpolation choice of the tensorflow path of `_resize_image`
(src/data.py lines 455-466): current size compared with the computed new
size axis by axis. -/
def tfResizeInterp (cur target : ImgSize) (overfull : Bool) : InterpMethod :=
  let ns := resizeNewSize cur target overfull
  if cur.height > ns.height ∨ cur.width > ns.width then InterpMethod.area
  else InterpMethod.cubic

/-- The four padding amounts (top, bottom, left, right) computed identically
by `_pad_image` (src/data.py lines 489-495) and `_np_pad_image` (lines
505-511): each axis deficit is halved and split into floor and ceiling. -/
def padAmounts (cur target : ImgSize) : ℤ × ℤ × ℤ × ℤ :=
  let padVertical : ℚ := ((target.height : ℚ) - (cur.height : ℚ)) / 2
  let padHorizontal : ℚ := ((target.width : ℚ) - (cur.width : ℚ)) / 2
  (⌊padVertical⌋, ⌈padVertical⌉, ⌊padHorizontal⌋, ⌈padHorizontal⌉)

/-- Resulting spatial dimensions of `_pad_image` / `_np_pad_image`: each side
of each axis is extended by the corresponding pad amount; `np.pad` and
`tf.pad` raise when any amount is negative, modelled by `none`. -/
def padImageSize (cur target : ImgSize) : Option ImgSize :=
  let a := padAmounts cur target
  if 0 ≤ a.1 ∧ 0 ≤ a.2.1 ∧ 0 ≤ a.2.2.1 ∧ 0 ≤ a.2.2.2 then
    some { height := cur.height + (a.1.toNat + a.2.1.toNat),
           width := cur.width + (a.2.2.1.toNat + a.2.2.2.toNat) }
  else none

/-- Constant fill value of `_pad_image` / `_np_pad_image`: 126 when the image
has 3 channels (stimulus), 0 otherwise (single-channel saliency map). -/
def padConstantValue (channels : Nat) : ℚ :=
  if channels = 3 then 126 else 0

/-- Length of the Python slice `l[a:b]` of a sequence of length `n`:
negative endpoints count from the end, endpoints are clamped to `[0, n]`,
and an empty range yields 0. -/
def npSliceLen (n : Nat) (a b : ℤ) : Nat :=
  let aClamped : ℤ := if a < 0 then max 0 ((n : ℤ) + a) else min a (n : ℤ)
  let bClamped : ℤ := if b < 0 then max 0 ((n : ℤ) + b) else min b (n : ℤ)
  (bClamped - aClamped).toNat

/-- Resulting spatial dimensions of `_crop_image` (src/data.py lines
540-557): floor-only top/left offsets, then a slice extending the target
extent from there. -/
def cropImageSize (cur target : ImgSize) : ImgSize :=
  let cropVertical : ℚ := ((cur.height : ℚ) - (target.height : ℚ)) / 2
  let cropHorizontal : ℚ := ((cur.width : ℚ) - (target.width : ℚ)) / 2
  let cropTop := ⌊cropVertical⌋
  let cropLeft := ⌊cropHorizontal⌋
  { height := npSliceLen cur.height cropTop (cropTop + (target.height : ℤ)),
    width := npSliceLen cur.width cropLeft (cropLeft + (target.width : ℤ)) }

/-- In-place swap of positions `i` and `j`, the elementary step of the
Fisher-Yates shuffle performed by `numpy.random.RandomState.shuffle`;
out-of-range indices leave the list unchanged (never reached below). -/
def listSwap (l : List Nat) (i j : Nat) : List Nat :=
  match l[i]?, l[j]? with
  | some a, some b => (l.set i b).set j a
  | _, _ => l

/-- The Fisher-Yates steps of `prng.shuffle` at positions `i, i-1, ..., 1`:
the draw at position `i` is `d i % (i + 1)`, the uniform integer on `[0, i]`
produced by the generator. The seeded generator itself (numpy MT19937 with
seed 42) is external library state, so the draw stream `d` is a parameter;
a fixed seed yields one fixed stream. -/
def fisherYatesAux (d : Nat → Nat) : Nat → List Nat → List Nat
  | 0, l => l
  | i + 1, l => fisherYatesAux d i (listSwap l (i + 1) (d (i + 1) % (i + 2)))

/-- `prng.shuffle(indices)`: Fisher-Yates over the whole list. -/
def npShuffle (d : Nat → Nat) (l : List Nat) : List Nat :=
  fisherYatesAux d (l.length - 1) l

/-- `_get_random_indices(list_length)` (src/data.py lines 591-607): the
identity permutation of `[0, list_length)` shuffled by the seeded
generator. -/
def getRandomIndices (d : Nat → Nat) (n : Nat) : List Nat :=
  npShuffle d (List.range n)

/-- The MIT1003 split of `load_data` (src/data.py lines 108-120): the first
`n_train` shuffled indices train, the remainder validate. -/
def randomPartition (d : Nat → Nat) (n nTrain : Nat) : List Nat × List Nat :=
  ((getRandomIndices d n).take nTrain, (getRandomIndices d n).drop nTrain)

/-- `np.tile(l, reps)`: `reps` concatenated copies of `l`. -/
def npTile (l : List Nat) : Nat → List Nat
  | 0 => []
  | reps + 1 => l ++ npTile l reps

/-- The in-place loop of `CAT2000.load_data` (src/data.py lines 174-175 and
187-188): the entry at position `idx` is shifted by `idx // r * 100`, which
places copy `c` of the tiled excerpt into category block `c`. -/
def addCatOffsets (r : Nat) (l : List Nat) : List Nat :=
  l.enum.map (fun p => p.2 + p.1 / r * 100)

/-- Training indices built by `CAT2000.load_data` (src/data.py lines
168-175): `ratio = n_train * 100 // 2000` first shuffled within-category
offsets, tiled over the 20 contiguous categories. -/
def cat2000TrainIndices (d : Nat → Nat) : List Nat :=
  let indices := getRandomIndices d 100
  let r := 1600 * 100 / 2000
  addCatOffsets r (npTile (indices.take r) 20)

/-- Validation indices built by `CAT2000.load_data` (src/data.py lines
183-188): the last `ratio = n_valid * 100 // 2000` shuffled offsets
(`indices[-ratio:]`), tiled over the 20 contiguous categories. -/
def cat2000ValidIndices (d : Nat → Nat) : List Nat :=
  let indices := getRandomIndices d 100
  let r := 400 * 100 / 2000
  addCatOffsets r (npTile (indices.drop (indices.length - r)) 20)

/-- Membership of an index in contiguous category block `c` of CAT2000
(blocks of 100 consecutive indices). -/
def inBlock (c : Nat) : Nat → Bool :=
  fun x => decide (100 * c ≤ x ∧ x < 100 * c + 100)

/-- Fuel-driven chunking of a sequence into batches of `k` (the final batch
may be shorter), as `dataset.batch(100)` does; the fuel is the sequence
length, enough because every step consumes at least one element when
`0 < k`. -/
def batchListAux (k : Nat) : Nat → List Nat → List (List Nat)
  | 0, l => if l.isEmpty then [] else [l]
  | fuel + 1, l => if l.isEmpty then [] else l.take k :: batchListAux k fuel (l.drop k)

/-- The batch pipeline of `_fetch_dataset` (src/data.py lines 295-324) on the
decoded frame sequence of one video: the original shuffle block is commented
out in the source, so the `shuffle` flag is accepted but never used; frames
are batched in groups of 100 (`dataset.batch(100)`) and prefetched
(`prefetch(2)`, a latency hint with no effect on content or order). -/
def fetchDatasetBatches (frames : List Nat) (shuffle : Bool) : List (List Nat) :=
  let _unusedShuffleFlag := shuffle
  batchListAux 100 frames.length frames

/-- `_parse_video_files` (src/data.py lines 333-359) for one video file,
with the decoder abstracted as a function from path to decoded frame list:
a file that cannot be opened or yields zero frames leaves `frames_list`
empty, and `np.stack([])` raises
`ValueError: need at least one array to stack`. -/
def parseVideoFrames (decode : String → List Nat) (path : String) :
    Except PyError (List Nat) :=
  match decode path with
  | [] => Except.error (PyError.valueError "need at least one array to stack")
  | fs => Except.ok fs

/-- The per-file inference loop of `test_model` (src/main.py lines 189-236):
for each video file the iterator is initialised (running the decode), then
batches are consumed until the `OutOfRangeError` that signals normal
exhaustion — the only exception the loop catches. A decode error surfaces at
initialisation, outside any handler, and aborts the whole run; `Except.bind`
models that propagation. On success each file contributes its frame sequence
in input order. -/
def testModelRun (decode : String → List Nat) :
    List String → Except PyError (List (String × List Nat))
  | [] => Except.ok []
  | f :: rest => do
    let frames ← parseVideoFrames decode f
    let outputs := (fetchDatasetBatches frames false).flatten
    let tail ← testModelRun decode rest
    Except.ok ((f, outputs) :: tail)

/-- The decoder used to exhibit the effect of a decode failure: the file
named "bad.avi" yields no frames, every other file decodes to one frame. -/
def cexDecode : String → List Nat :=
  fun p => if p = "bad.avi" then [] else [7]

/-- Insertion of a string into a sorted list, building block of the
lexicographic sort `data_list.sort()` in `_get_file_list`. -/
def insertSorted (a : String) : List String → List String
  | [] => [a]
  | b :: t => if a ≤ b then a :: b :: t else b :: insertSorted a t

/-- Lexicographic sort of `data_list.sort()` (insertion sort; only the
sortedness of the result matters to the callers). -/
def sortStrings (l : List String) : List String :=
  l.foldr insertSorted []

/-- `_get_file_list` (src/data.py lines 560-588) with the filesystem walk
abstracted as the list of matching files it finds: the collected list is
sorted and must be non-empty, otherwise `FileNotFoundError` is raised. -/
def getFileList (found : List String) : Except PyError (List String) :=
  let sorted := sortStrings found
  if sorted.isEmpty then Except.error (PyError.fileNotFound "No data was found")
  else Except.ok sorted

/-- The required positional parameters of
`_fetch_dataset(files, target_size, shuffle, video_file, online=False)`
(src/data.py line 295); only `online` has a default. -/
def fetchDatasetRequiredParams : List String :=
  ["files", "target_size", "shuffle", "video_file"]

/-- Python positional-argument binding: a call with fewer positional
arguments than required parameters raises `TypeError` naming the first
unbound parameter. -/
def pyBindPositional (required : List String) (provided : Nat) :
    Except PyError Unit :=
  if provided < required.length then
    Except.error (PyError.typeError
      ("missing 1 required positional argument: "
        ++ (required.drop provided).headD ""))
  else Except.ok ()

/-- The call `_fetch_dataset((list_x, list_y), self._target_size, shuffle)`
appearing in every training-phase `load_data` (src/data.py lines 54, 62,
114, 122, 180, 193): exactly 3 positional arguments are passed, so binding
against the 4 required parameters raises `TypeError` before the function
body runs; the argument values are accepted (and evaluated) but unused. -/
def callFetchDataset3 (_files : List String × List String)
    (_targetSize : ImgSize) (_shuffle : Bool) : Except PyError Unit :=
  pyBindPositional fetchDatasetRequiredParams 3

/-- `SALICON.load_data` (src/data.py lines 48-65) over an abstract
filesystem: the four directory walks yield the four given file lists. -/
def loadDataSALICON (trainX trainY validX validY : List String)
    (targetSize : ImgSize) : Except PyError (Unit × Unit) := do
  let tlx ← getFileList trainX
  let tly ← getFileList trainY
  let _ ← checkConsistency (List.zip tlx tly) 10000
  let trainSet ← callFetchDataset3 (tlx, tly) targetSize true
  let vlx ← getFileList validX
  let vly ← getFileList validY
  let _ ← checkConsistency (List.zip vlx vly) 5000
  let validSet ← callFetchDataset3 (vlx, vly) targetSize false
  Except.ok (trainSet, validSet)

/-- `MIT1003.load_data` (src/data.py lines 102-125) over an abstract
filesystem; `d` is the draw stream of the seeded generator used by
`_get_random_indices(1003)`. Selected entries are read with a default
(indices stay in range whenever the count check passes). -/
def loadDataMIT1003 (d : Nat → Nat) (sx sy : List String)
    (targetSize : ImgSize) : Except PyError (Unit × Unit) := do
  let lx ← getFileList sx
  let ly ← getFileList sy
  let _ ← checkConsistency (List.zip lx ly) 1003
  let indices := getRandomIndices d 1003
  let excerpt := indices.take 803
  let trainListX := excerpt.map (fun idx => lx.getD idx "")
  let trainListY := excerpt.map (fun idx => ly.getD idx "")
  let trainSet ← callFetchDataset3 (trainListX, trainListY) targetSize true
  let excerptV := indices.drop 803
  let validListX := excerptV.map (fun idx => lx.getD idx "")
  let validListY := excerptV.map (fun idx => ly.getD idx "")
  let validSet ← callFetchDataset3 (validListX, validListY) targetSize false
  Except.ok (trainSet, validSet)

/-- `CAT2000.load_data` (src/data.py lines 162-196) over an abstract
filesystem; `d` is the draw stream of the seeded generator used by
`_get_random_indices(100)`. -/
def loadDataCAT2000 (d : Nat → Nat) (sx sy : List String)
    (targetSize : ImgSize) : Except PyError (Unit × Unit) := do
  let lx ← getFileList sx
  let ly ← getFileList sy
  let _ ← checkConsistency (List.zip lx ly) 2000
  let excerpt := cat2000TrainIndices d
  let trainListX := excerpt.map (fun idx => lx.getD idx "")
  let trainListY := excerpt.map (fun idx => ly.getD idx "")
  let trainSet ← callFetchDataset3 (trainListX, trainListY) targetSize true
  let excerptV := cat2000ValidIndices d
  let validListX := excerptV.map (fun idx => lx.getD idx "")
  let validListY := excerptV.map (fun idx => ly.getD idx "")
  let validSet ← callFetchDataset3 (validListX, validListY) targetSize false
  Except.ok (trainSet, validSet)

instance {ε α : Type} [DecidableEq ε] [DecidableEq α] : DecidableEq (Except ε α)
  | Except.ok a, Except.ok b =>
    if h : a = b then isTrue (by rw [h]) else isFalse (fun hh => h (by injection hh))
  | Except.error a, Except.error b =>
    if h : a = b then isTrue (by rw [h]) else isFalse (fun hh => h (by injection hh))
  | Except.ok _, Except.error _ => isFalse (fun hh => Except.noConfusion hh)
  | Except.error _, Except.ok _ => isFalse (fun hh => Except.noConfusion hh)

theorem roundHalfEven_le {q : ℚ} {n : ℤ} (h : q ≤ (n : ℚ)) : roundHalfEven q ≤ n := by
  have hf : ⌊q⌋ ≤ n := by
    have h2 := Int.floor_le_floor h
    simpa using h2
  unfold roundHalfEven
  split_ifs with h1 h2 h3
  · exact hf
  · have hq : (⌊q⌋ : ℚ) + 1/2 < q := by linarith
    have hlt : (⌊q⌋ : ℚ) < (n : ℚ) := by linarith
    have : ⌊q⌋ < n := by exact_mod_cast hlt
    omega
  · exact hf
  · have hq : (⌊q⌋ : ℚ) + 1/2 ≤ q := by
      have := not_lt.mp h1
      linarith
    have hlt : (⌊q⌋ : ℚ) < (n : ℚ) := by linarith
    have : ⌊q⌋ < n := by exact_mod_cast hlt
    omega

theorem le_roundHalfEven {q : ℚ} {n : ℤ} (h : (n : ℚ) ≤ q) : n ≤ roundHalfEven q := by
  have hf : n ≤ ⌊q⌋ := Int.le_floor.mpr h
  unfold roundHalfEven
  split_ifs <;> omega

theorem resize_shrink_le (cur target : ImgSize) (hh : 0 < cur.height) (hw : 0 < cur.width) :
    (resizeNewSize cur target false).height ≤ target.height ∧
    (resizeNewSize cur target false).width ≤ target.width := by
  obtain ⟨ch, cw⟩ := cur
  obtain ⟨th, tw⟩ := target
  have hch : (0 : ℚ) < ch := by exact_mod_cast hh
  have hcw : (0 : ℚ) < cw := by exact_mod_cast hw
  simp only [resizeNewSize, Bool.false_eq_true, if_false]
  constructor
  · apply Int.toNat_le.mpr
    apply roundHalfEven_le
    push_cast
    calc (ch : ℚ) * min ((th : ℚ)/ch) ((tw : ℚ)/cw)
        ≤ (ch : ℚ) * ((th : ℚ)/ch) :=
          mul_le_mul_of_nonneg_left (min_le_left _ _) (le_of_lt hch)
      _ = th := by field_simp
  · apply Int.toNat_le.mpr
    apply roundHalfEven_le
    push_cast
    calc (cw : ℚ) * min ((th : ℚ)/ch) ((tw : ℚ)/cw)
        ≤ (cw : ℚ) * ((tw : ℚ)/cw) :=
          mul_le_mul_of_nonneg_left (min_le_right _ _) (le_of_lt hcw)
      _ = tw := by field_simp

theorem resize_grow_ge (cur target : ImgSize) (hh : 0 < cur.height) (hw : 0 < cur.width) :
    target.height ≤ (resizeNewSize cur target true).height ∧
    target.width ≤ (resizeNewSize cur target true).width := by
  obtain ⟨ch, cw⟩ := cur
  obtain ⟨th, tw⟩ := target
  have hch : (0 : ℚ) < ch := by exact_mod_cast hh
  have hcw : (0 : ℚ) < cw := by exact_mod_cast hw
  simp only [resizeNewSize, if_true]
  constructor
  · have hge : ((th : ℤ) : ℚ) ≤ (ch : ℚ) * max ((th : ℚ)/ch) ((tw : ℚ)/cw) := by
      push_cast
      calc (th : ℚ) = (ch : ℚ) * ((th : ℚ)/ch) := by field_simp
        _ ≤ (ch : ℚ) * max ((th : ℚ)/ch) ((tw : ℚ)/cw) :=
          mul_le_mul_of_nonneg_left (le_max_left _ _) (le_of_lt hch)
    have h2 := le_roundHalfEven hge
    have h3 := Int.toNat_le_toNat h2
    simpa using h3
  · have hge : ((tw : ℤ) : ℚ) ≤ (cw : ℚ) * max ((th : ℚ)/ch) ((tw : ℚ)/cw) := by
      push_cast
      calc (tw : ℚ) = (cw : ℚ) * ((tw : ℚ)/cw) := by field_simp
        _ ≤ (cw : ℚ) * max ((th : ℚ)/ch) ((tw : ℚ)/cw) :=
          mul_le_mul_of_nonneg_left (le_max_right _ _) (le_of_lt hcw)
    have h2 := le_roundHalfEven hge
    have h3 := Int.toNat_le_toNat h2
    simpa using h3

theorem floor_add_ceil_halves (d : ℤ) : ⌊((d : ℚ))/2⌋ + ⌈((d : ℚ))/2⌉ = d := by
  rcases Int.even_or_odd d with ⟨k, hk⟩ | ⟨k, hk⟩
  · subst hk
    have h1 : ((k + k : ℤ) : ℚ)/2 = ((k : ℤ) : ℚ) := by push_cast; ring
    rw [h1, Int.floor_intCast, Int.ceil_intCast]
  · subst hk
    have h1 : ((2*k + 1 : ℤ) : ℚ)/2 = ((k : ℤ) : ℚ) + 1/2 := by push_cast; ring
    rw [h1]
    have hfl : ⌊((k : ℤ) : ℚ) + 1/2⌋ = k := by
      rw [Int.floor_eq_iff]
      constructor <;> linarith
    have hcl : ⌈((k : ℤ) : ℚ) + 1/2⌉ = k + 1 := by
      rw [Int.ceil_eq_iff]
      constructor <;> push_cast <;> linarith
    rw [hfl, hcl]
    ring

theorem padAmounts_sum (cur target : ImgSize) :
    (padAmounts cur target).1 + (padAmounts cur target).2.1
      = (target.height : ℤ) - (cur.height : ℤ)
    ∧ (padAmounts cur target).2.2.1 + (padAmounts cur target).2.2.2
      = (target.width : ℤ) - (cur.width : ℤ) := by
  obtain ⟨ch, cw⟩ := cur
  obtain ⟨th, tw⟩ := target
  simp only [padAmounts]
  have hv : ((th : ℚ) - (ch : ℚ))/2 = (((th : ℤ) - (ch : ℤ) : ℤ) : ℚ)/2 := by
    push_cast; ring
  have hw : ((tw : ℚ) - (cw : ℚ))/2 = (((tw : ℤ) - (cw : ℤ) : ℤ) : ℚ)/2 := by
    push_cast; ring
  rw [hv, hw]
  exact ⟨floor_add_ceil_halves _, floor_add_ceil_halves _⟩

theorem padImageSize_of_le (cur target : ImgSize) (hh : cur.height ≤ target.height)
    (hw : cur.width ≤ target.width) : padImageSize cur target = some target := by
  obtain ⟨sv, sh⟩ := padAmounts_sum cur target
  obtain ⟨ch, cw⟩ := cur
  obtain ⟨th, tw⟩ := target
  simp only [padAmounts] at sv sh
  simp only [padImageSize, padAmounts]
  have hvq : (0 : ℚ) ≤ ((th : ℚ) - (ch : ℚ))/2 := by
    have : (ch : ℚ) ≤ (th : ℚ) := by exact_mod_cast hh
    linarith
  have hwq : (0 : ℚ) ≤ ((tw : ℚ) - (cw : ℚ))/2 := by
    have : (cw : ℚ) ≤ (tw : ℚ) := by exact_mod_cast hw
    linarith
  have h1 : 0 ≤ ⌊((th : ℚ) - (ch : ℚ))/2⌋ := Int.floor_nonneg.mpr hvq
  have h2 : 0 ≤ ⌈((th : ℚ) - (ch : ℚ))/2⌉ := Int.ceil_nonneg hvq
  have h3 : 0 ≤ ⌊((tw : ℚ) - (cw : ℚ))/2⌋ := Int.floor_nonneg.mpr hwq
  have h4 : 0 ≤ ⌈((tw : ℚ) - (cw : ℚ))/2⌉ := Int.ceil_nonneg hwq
  rw [if_pos ⟨h1, h2, h3, h4⟩]
  simp only [Option.some.injEq, ImgSize.mk.injEq]
  constructor <;> omega

theorem slice_len_exact (n t : Nat) (a : ℤ) (h0 : 0 ≤ a)
    (hab : a + (t : ℤ) ≤ (n : ℤ)) : npSliceLen n a (a + (t : ℤ)) = t := by
  simp only [npSliceLen]
  split_ifs <;> omega

theorem crop_after_grow (cur target : ImgSize) (hh : target.height ≤ cur.height)
    (hw : target.width ≤ cur.width) : cropImageSize cur target = target := by
  obtain ⟨ch, cw⟩ := cur
  obtain ⟨th, tw⟩ := target
  simp only [cropImageSize]
  have hvq : ((ch : ℚ) - (th : ℚ))/2 = (((ch : ℤ) - (th : ℤ) : ℤ) : ℚ)/2 := by
    push_cast; ring
  have hwq : ((cw : ℚ) - (tw : ℚ))/2 = (((cw : ℤ) - (tw : ℤ) : ℤ) : ℚ)/2 := by
    push_cast; ring
  have hv0 : (0 : ℚ) ≤ ((ch : ℚ) - (th : ℚ))/2 := by
    have : (th : ℚ) ≤ (ch : ℚ) := by exact_mod_cast hh
    linarith
  have hw0 : (0 : ℚ) ≤ ((cw : ℚ) - (tw : ℚ))/2 := by
    have : (tw : ℚ) ≤ (cw : ℚ) := by exact_mod_cast hw
    linarith
  have h1 : 0 ≤ ⌊((ch : ℚ) - (th : ℚ))/2⌋ := Int.floor_nonneg.mpr hv0
  have h3 : 0 ≤ ⌊((cw : ℚ) - (tw : ℚ))/2⌋ := Int.floor_nonneg.mpr hw0
  have h2 : ⌊((ch : ℚ) - (th : ℚ))/2⌋ ≤ (ch : ℤ) - (th : ℤ) := by
    rw [hvq]
    have harg : (((ch : ℤ) - (th : ℤ) : ℤ) : ℚ)/2 ≤ (((ch : ℤ) - (th : ℤ) : ℤ) : ℚ) := by
      rw [hvq] at hv0
      linarith
    calc ⌊(((ch : ℤ) - (th : ℤ) : ℤ) : ℚ)/2⌋ ≤ ⌊(((ch : ℤ) - (th : ℤ) : ℤ) : ℚ)⌋ :=
          Int.floor_le_floor harg
      _ = (ch : ℤ) - (th : ℤ) := Int.floor_intCast _
  have h4 : ⌊((cw : ℚ) - (tw : ℚ))/2⌋ ≤ (cw : ℤ) - (tw : ℤ) := by
    rw [hwq]
    have harg : (((cw : ℤ) - (tw : ℤ) : ℤ) : ℚ)/2 ≤ (((cw : ℤ) - (tw : ℤ) : ℤ) : ℚ) := by
      rw [hwq] at hw0
      linarith
    calc ⌊(((cw : ℤ) - (tw : ℤ) : ℤ) : ℚ)/2⌋ ≤ ⌊(((cw : ℤ) - (tw : ℤ) : ℤ) : ℚ)⌋ :=
          Int.floor_le_floor harg
      _ = (cw : ℤ) - (tw : ℤ) := Int.floor_intCast _
  simp only [ImgSize.mk.injEq]
  constructor
  · exact slice_len_exact ch th _ h1 (by omega)
  · exact slice_len_exact cw tw _ h3 (by omega)

/-- C1: for every original size and target size with positive dimensions and
target no larger than the original, shrink-to-fit resize followed by
symmetric padding yields exactly the target size, and grow-to-cover resize
back toward the original followed by the inverse center-crop yields exactly
the original size. -/
theorem roundtrip_dims (orig target : ImgSize) (ho1 : 0 < orig.height)
    (ho2 : 0 < orig.width) (ht1 : 0 < target.height) (ht2 : 0 < target.width)
    (_hth : target.height ≤ orig.height) (_htw : target.width ≤ orig.width) :
    padImageSize (resizeNewSize orig target false) target = some target
    ∧ cropImageSize (resizeNewSize target orig true) orig = orig := by
  constructor
  · obtain ⟨l1, l2⟩ := resize_shrink_le orig target ho1 ho2
    exact padImageSize_of_le _ _ l1 l2
  · obtain ⟨g1, g2⟩ := resize_grow_ge target orig ht1 ht2
    exact crop_after_grow _ _ g1 g2

theorem roundtrip_dims_witness :
    (padImageSize (resizeNewSize ⟨480, 640⟩ ⟨240, 320⟩ false) ⟨240, 320⟩
        = some ⟨240, 320⟩
      ∧ cropImageSize (resizeNewSize ⟨240, 320⟩ ⟨480, 640⟩ true) ⟨480, 640⟩
        = ⟨480, 640⟩)
    ∧ (padImageSize (resizeNewSize ⟨500, 500⟩ ⟨256, 256⟩ false) ⟨256, 256⟩
        = some ⟨256, 256⟩
      ∧ cropImageSize (resizeNewSize ⟨256, 256⟩ ⟨500, 500⟩ true) ⟨500, 500⟩
        = ⟨500, 500⟩) :=
  ⟨roundtrip_dims ⟨480, 640⟩ ⟨240, 320⟩ (by decide) (by decide) (by decide)
      (by decide) (by decide) (by decide),
   roundtrip_dims ⟨500, 500⟩ ⟨256, 256⟩ (by decide) (by decide) (by decide)
      (by decide) (by decide) (by decide)⟩

/-- C2: for every valid (current, target) pair, shrink-to-fit resize followed
by symmetric padding produces exactly the target size; the per-axis floor and
ceiling halves of the pad sum to the full pad; and the constant fill value is
126 for 3-channel images and 0 for 1-channel images. -/
theorem resize_pad_target (cur target : ImgSize) (h1 : 0 < cur.height)
    (h2 : 0 < cur.width) (_h3 : 0 < target.height) (_h4 : 0 < target.width) :
    padImageSize (resizeNewSize cur target false) target = some target
    ∧ (padAmounts (resizeNewSize cur target false) target).1
        + (padAmounts (resizeNewSize cur target false) target).2.1
        = (target.height : ℤ) - ((resizeNewSize cur target false).height : ℤ)
    ∧ (padAmounts (resizeNewSize cur target false) target).2.2.1
        + (padAmounts (resizeNewSize cur target false) target).2.2.2
        = (target.width : ℤ) - ((resizeNewSize cur target false).width : ℤ)
    ∧ padConstantValue 3 = 126 ∧ padConstantValue 1 = 0 := by
  obtain ⟨l1, l2⟩ := resize_shrink_le cur target h1 h2
  obtain ⟨s1, s2⟩ := padAmounts_sum (resizeNewSize cur target false) target
  exact ⟨padImageSize_of_le _ _ l1 l2, s1, s2, rfl, rfl⟩

theorem resize_pad_target_witness :
    padImageSize (resizeNewSize ⟨480, 640⟩ ⟨240, 320⟩ false) ⟨240, 320⟩
      = some ⟨240, 320⟩
    ∧ (padAmounts (resizeNewSize ⟨480, 640⟩ ⟨240, 320⟩ false) ⟨240, 320⟩).1
        + (padAmounts (resizeNewSize ⟨480, 640⟩ ⟨240, 320⟩ false) ⟨240, 320⟩).2.1
        = (240 : ℤ) - ((resizeNewSize ⟨480, 640⟩ ⟨240, 320⟩ false).height : ℤ)
    ∧ (padAmounts (resizeNewSize ⟨480, 640⟩ ⟨240, 320⟩ false) ⟨240, 320⟩).2.2.1
        + (padAmounts (resizeNewSize ⟨480, 640⟩ ⟨240, 320⟩ false) ⟨240, 320⟩).2.2.2
        = (320 : ℤ) - ((resizeNewSize ⟨480, 640⟩ ⟨240, 320⟩ false).width : ℤ)
    ∧ padConstantValue 3 = 126 ∧ padConstantValue 1 = 0 :=
  resize_pad_target ⟨480, 640⟩ ⟨240, 320⟩ (by decide) (by decide) (by decide)
    (by decide)

/-- C3: the numpy path of `_resize_image` performs its shrink test after
swapping the computed size into (width, height) order for `cv2.resize`, so
for the 100×200 image resized to 150×300 (an enlargement in both dimensions,
computed new size 150×300) it selects area interpolation, while the
tensorflow path on the same input selects bicubic as the claim describes. -/
theorem np_interp_choice_defect :
    npResizeInterp ⟨100, 200⟩ ⟨150, 300⟩ false = InterpMethod.area
    ∧ resizeNewSize ⟨100, 200⟩ ⟨150, 300⟩ false = ⟨150, 300⟩
    ∧ tfResizeInterp ⟨100, 200⟩ ⟨150, 300⟩ false = InterpMethod.cubic := by
  with_unfolding_all decide

theorem cons_set_perm (t : List Nat) (m : Nat) (x : Nat) (h : m < t.length) :
    List.Perm (t[m] :: t.set m x) (x :: t) := by
  induction t generalizing m with
  | nil => simp at h
  | cons a t ih =>
    cases m with
    | zero =>
      simp only [List.getElem_cons_zero, List.set_cons_zero]
      exact List.Perm.swap x a t
    | succ m =>
      simp only [List.getElem_cons_succ, List.set_cons_succ]
      have h' : m < t.length := by simpa using h
      have s1 : List.Perm (t[m] :: a :: t.set m x) (a :: t[m] :: t.set m x) :=
        List.Perm.swap a t[m] _
      have s2 : List.Perm (a :: t[m] :: t.set m x) (a :: (x :: t)) :=
        (ih m h').cons a
      have s3 : List.Perm (a :: x :: t) (x :: a :: t) := List.Perm.swap x a t
      exact s1.trans (s2.trans s3)

theorem set_set_perm (l : List Nat) (i j : Nat) (hi : i < l.length)
    (hj : j < l.length) : List.Perm ((l.set i (l.get ⟨j, hj⟩)).set j (l.get ⟨i, hi⟩)) l := by
  induction l generalizing i j with
  | nil => simp at hi
  | cons a t ih =>
    cases i with
    | zero =>
      cases j with
      | zero =>
        simp only [List.getElem_cons_zero, List.set_cons_zero]
        exact List.Perm.refl _
      | succ j =>
        simp only [List.getElem_cons_zero, List.getElem_cons_succ,
          List.set_cons_zero, List.set_cons_succ]
        exact cons_set_perm t j a (by simpa using hj)
    | succ i =>
      cases j with
      | zero =>
        simp only [List.getElem_cons_zero, List.getElem_cons_succ,
          List.set_cons_zero, List.set_cons_succ]
        exact cons_set_perm t i a (by simpa using hi)
      | succ j =>
        simp only [List.getElem_cons_succ, List.set_cons_succ]
        exact (ih i j (by simpa using hi) (by simpa using hj)).cons a

theorem listSwap_perm (l : List Nat) (i j : Nat) :
    List.Perm (listSwap l i j) l := by
  unfold listSwap
  split
  · rename_i a b h1 h2
    obtain ⟨hi, ha⟩ := List.getElem?_eq_some_iff.mp h1
    obtain ⟨hj, hb⟩ := List.getElem?_eq_some_iff.mp h2
    subst ha
    subst hb
    exact set_set_perm l i j hi hj
  · exact List.Perm.refl l

theorem fisherYatesAux_perm (d : Nat → Nat) :
    ∀ (i : Nat) (l : List Nat), List.Perm (fisherYatesAux d i l) l := by
  intro i
  induction i with
  | zero => intro l; exact List.Perm.refl l
  | succ i ih =>
    intro l
    exact (ih _).trans (listSwap_perm l (i + 1) (d (i + 1) % (i + 2)))

theorem getRandomIndices_perm (d : Nat → Nat) (n : Nat) :
    List.Perm (getRandomIndices d n) (List.range n) :=
  fisherYatesAux_perm d _ _

theorem getRandomIndices_nodup (d : Nat → Nat) (n : Nat) :
    (getRandomIndices d n).Nodup :=
  ((getRandomIndices_perm d n).nodup_iff).mpr (List.nodup_range n)

theorem getRandomIndices_length (d : Nat → Nat) (n : Nat) :
    (getRandomIndices d n).length = n :=
  ((getRandomIndices_perm d n).length_eq).trans (List.length_range n)

/-- C4: the seeded partitioner of `_get_random_indices` plus head/tail split
is deterministic (identical draw streams, i.e. identical seeds, give
identical partitions), its train and validation index lists are disjoint,
and together they cover exactly `[0, n)`. -/
theorem random_partition_spec (d₁ d₂ : Nat → Nat) (n nTrain : Nat)
    (hseed : ∀ k, d₁ k = d₂ k) (_hn : nTrain ≤ n) :
    randomPartition d₁ n nTrain = randomPartition d₂ n nTrain
    ∧ (∀ x ∈ (randomPartition d₁ n nTrain).1, x ∉ (randomPartition d₁ n nTrain).2)
    ∧ (∀ x, (x ∈ (randomPartition d₁ n nTrain).1
        ∨ x ∈ (randomPartition d₁ n nTrain).2) ↔ x < n) := by
  have hd : d₁ = d₂ := funext hseed
  subst hd
  refine ⟨rfl, ?_, ?_⟩
  · have hsplit : (getRandomIndices d₁ n).take nTrain
        ++ (getRandomIndices d₁ n).drop nTrain = getRandomIndices d₁ n :=
      List.take_append_drop _ _
    have hnd : ((getRandomIndices d₁ n).take nTrain
        ++ (getRandomIndices d₁ n).drop nTrain).Nodup := by
      rw [hsplit]
      exact getRandomIndices_nodup d₁ n
    exact fun x hx hx2 => List.disjoint_of_nodup_append hnd hx hx2
  · intro x
    constructor
    · rintro (hx | hx)
      · have : x ∈ getRandomIndices d₁ n := List.take_subset _ _ hx
        exact List.mem_range.mp ((getRandomIndices_perm d₁ n).mem_iff.mp this)
      · have : x ∈ getRandomIndices d₁ n := List.drop_subset _ _ hx
        exact List.mem_range.mp ((getRandomIndices_perm d₁ n).mem_iff.mp this)
    · intro hx
      have hmem : x ∈ getRandomIndices d₁ n :=
        (getRandomIndices_perm d₁ n).mem_iff.mpr (List.mem_range.mpr hx)
      rw [← List.take_append_drop nTrain (getRandomIndices d₁ n)] at hmem
      exact List.mem_append.mp hmem

theorem random_partition_spec_witness :
    randomPartition (fun k => k) 5 3 = randomPartition (fun k => k) 5 3
    ∧ (∀ x ∈ (randomPartition (fun k => k) 5 3).1,
        x ∉ (randomPartition (fun k => k) 5 3).2)
    ∧ (∀ x, (x ∈ (randomPartition (fun k => k) 5 3).1
        ∨ x ∈ (randomPartition (fun k => k) 5 3).2) ↔ x < 5) :=
  random_partition_spec (fun k => k) (fun k => k) 5 3 (fun _ => rfl) (by decide)

theorem enumFrom_append_eq (l₁ l₂ : List Nat) (n : Nat) :
    (l₁ ++ l₂).enumFrom n = l₁.enumFrom n ++ l₂.enumFrom (n + l₁.length) := by
  induction l₁ generalizing n with
  | nil => simp
  | cons a l₁ ih =>
    simp only [List.cons_append, List.enumFrom_cons, ih (n + 1), List.length_cons]
    have harith : n + 1 + l₁.length = n + (l₁.length + 1) := by omega
    rw [harith]

theorem enumFrom_map_block (r c : Nat) (_hr : 0 < r) :
    ∀ (B : List Nat) (p : Nat), r * c ≤ p → p + B.length ≤ r * c + r →
    (B.enumFrom p).map (fun q => q.2 + q.1 / r * 100)
      = B.map (fun a => a + c * 100) := by
  intro B
  induction B with
  | nil => intro p _ _; rfl
  | cons b B ih =>
    intro p h1 h2
    simp only [List.enumFrom_cons, List.map_cons, List.length_cons] at h2 ⊢
    have hdiv : p / r = c := by
      apply Nat.div_eq_of_lt_le
      · rw [Nat.mul_comm]; exact h1
      · rw [Nat.succ_mul, Nat.mul_comm]; omega
    rw [hdiv]
    congr 1
    exact ih (p + 1) (by omega) (by omega)

theorem npTile_enum_flatMap (A : List Nat) (r : Nat) (hr : 0 < r)
    (hA : A.length = r) :
    ∀ (reps c₀ : Nat),
    ((npTile A reps).enumFrom (r * c₀)).map (fun q => q.2 + q.1 / r * 100)
      = (List.range' c₀ reps).flatMap (fun c => A.map (fun a => a + c * 100)) := by
  intro reps
  induction reps with
  | zero => intro c₀; rfl
  | succ reps ih =>
    intro c₀
    show ((A ++ npTile A reps).enumFrom (r * c₀)).map _ = _
    rw [enumFrom_append_eq, List.map_append]
    rw [enumFrom_map_block r c₀ hr A (r * c₀) (le_refl _) (by omega)]
    rw [hA, show r * c₀ + r = r * (c₀ + 1) from (Nat.mul_succ r c₀).symm, ih (c₀ + 1)]
    rw [List.range'_succ, List.flatMap_cons]

theorem cat2000Train_eq_flatMap (d : Nat → Nat) :
    cat2000TrainIndices d
      = (List.range' 0 20).flatMap
          (fun c => ((getRandomIndices d 100).take 80).map (fun a => a + c * 100)) := by
  have hlen : ((getRandomIndices d 100).take 80).length = 80 := by
    rw [List.length_take, getRandomIndices_length]
    decide
  have h := npTile_enum_flatMap ((getRandomIndices d 100).take 80) 80
    (by omega) hlen 20 0
  rw [Nat.mul_zero] at h
  simpa [cat2000TrainIndices, addCatOffsets, List.enum] using h

theorem cat2000Valid_eq_flatMap (d : Nat → Nat) :
    cat2000ValidIndices d
      = (List.range' 0 20).flatMap
          (fun c => ((getRandomIndices d 100).drop 80).map (fun a => a + c * 100)) := by
  have hlen : ((getRandomIndices d 100).drop 80).length = 20 := by
    rw [List.length_drop, getRandomIndices_length]
  have h := npTile_enum_flatMap ((getRandomIndices d 100).drop 80) 20
    (by omega) hlen 20 0
  rw [Nat.mul_zero] at h
  have hdropIdx : (getRandomIndices d 100).length - 400 * 100 / 2000 = 80 := by
    rw [getRandomIndices_length]
  simpa [cat2000ValidIndices, addCatOffsets, List.enum, hdropIdx] using h

theorem map_filter_inBlock_self (A : List Nat) (hA : ∀ a ∈ A, a < 100) (c : Nat) :
    (A.map (fun a => a + c * 100)).filter (inBlock c) = A.map (fun a => a + c * 100) := by
  apply List.filter_eq_self.mpr
  intro x hx
  obtain ⟨a, ha, rfl⟩ := List.mem_map.mp hx
  have := hA a ha
  simp only [inBlock, decide_eq_true_eq]
  omega

theorem map_filter_inBlock_ne (A : List Nat) (hA : ∀ a ∈ A, a < 100) (c c' : Nat)
    (hne : c' ≠ c) :
    (A.map (fun a => a + c' * 100)).filter (inBlock c) = [] := by
  apply List.filter_eq_nil_iff.mpr
  intro x hx
  obtain ⟨a, ha, rfl⟩ := List.mem_map.mp hx
  have := hA a ha
  simp only [inBlock, decide_eq_true_eq]
  omega

theorem flatMap_filter_inBlock_len (A : List Nat) (hA : ∀ a ∈ A, a < 100) (c : Nat) :
    ∀ (cs : List Nat), cs.Nodup →
      ((cs.flatMap (fun q => A.map (fun a => a + q * 100))).filter (inBlock c)).length
        = if c ∈ cs then A.length else 0 := by
  intro cs
  induction cs with
  | nil => intro _; simp
  | cons c₀ cs ih =>
    intro hnd
    rw [List.flatMap_cons, List.filter_append, List.length_append]
    have hnd' : cs.Nodup := (List.nodup_cons.mp hnd).2
    have hc₀ : c₀ ∉ cs := (List.nodup_cons.mp hnd).1
    by_cases hcc : c₀ = c
    · subst hcc
      rw [map_filter_inBlock_self A hA c₀, ih hnd']
      rw [if_neg (fun hmem => hc₀ hmem)]
      simp [List.length_map]
    · rw [map_filter_inBlock_ne A hA c c₀ hcc, ih hnd']
      by_cases hmem : c ∈ cs
      · rw [if_pos hmem, if_pos (List.mem_cons_of_mem c₀ hmem)]
        simp
      · rw [if_neg hmem, if_neg (fun h => by
          rcases List.mem_cons.mp h with h1 | h2
          · exact hcc h1.symm
          · exact hmem h2)]
        simp

theorem take80_lt_100 (d : Nat → Nat) :
    ∀ a ∈ (getRandomIndices d 100).take 80, a < 100 := by
  intro a ha
  have hmem : a ∈ getRandomIndices d 100 := List.take_subset _ _ ha
  exact List.mem_range.mp ((getRandomIndices_perm d 100).mem_iff.mp hmem)

theorem drop80_lt_100 (d : Nat → Nat) :
    ∀ a ∈ (getRandomIndices d 100).drop 80, a < 100 := by
  intro a ha
  have hmem : a ∈ getRandomIndices d 100 := List.drop_subset _ _ ha
  exact List.mem_range.mp ((getRandomIndices_perm d 100).mem_iff.mp hmem)

theorem cat2000_disjoint (d : Nat → Nat) :
    ∀ x ∈ cat2000TrainIndices d, x ∉ cat2000ValidIndices d := by
  intro x hxT hxV
  rw [cat2000Train_eq_flatMap] at hxT
  rw [cat2000Valid_eq_flatMap] at hxV
  obtain ⟨c, _, hx⟩ := List.mem_flatMap.mp hxT
  obtain ⟨a, ha, hax⟩ := List.mem_map.mp hx
  obtain ⟨c2, _, hx2⟩ := List.mem_flatMap.mp hxV
  obtain ⟨b, hb, hbx⟩ := List.mem_map.mp hx2
  have ha100 : a < 100 := take80_lt_100 d a ha
  have hb100 : b < 100 := drop80_lt_100 d b hb
  have hab : a = b := by omega
  subst hab
  have hsplit : (getRandomIndices d 100).take 80
      ++ (getRandomIndices d 100).drop 80 = getRandomIndices d 100 :=
    List.take_append_drop _ _
  have hnd : ((getRandomIndices d 100).take 80
      ++ (getRandomIndices d 100).drop 80).Nodup := by
    rw [hsplit]
    exact getRandomIndices_nodup d 100
  exact List.disjoint_of_nodup_append hnd ha hb

/-- C5: in the CAT2000 category-interleaved split (corpus 2000, 20 contiguous
categories of 100, 1600 training samples, per-category ratio 80 of 100),
every category block contributes exactly 80 training indices and exactly 20
validation indices, and no index is selected for both sets. -/
theorem cat2000_category_counts (d : Nat → Nat) (c : Nat) (hc : c < 20) :
    ((cat2000TrainIndices d).filter (inBlock c)).length = 80
    ∧ ((cat2000ValidIndices d).filter (inBlock c)).length = 20
    ∧ (∀ x ∈ cat2000TrainIndices d, x ∉ cat2000ValidIndices d) := by
  have hmemc : c ∈ List.range' 0 20 := by
    rw [List.mem_range'_1]
    omega
  refine ⟨?_, ?_, cat2000_disjoint d⟩
  · rw [cat2000Train_eq_flatMap]
    rw [flatMap_filter_inBlock_len _ (take80_lt_100 d) c _ (List.nodup_range' 0 20)]
    rw [if_pos hmemc, List.length_take, getRandomIndices_length]
    decide
  · rw [cat2000Valid_eq_flatMap]
    rw [flatMap_filter_inBlock_len _ (drop80_lt_100 d) c _ (List.nodup_range' 0 20)]
    rw [if_pos hmemc, List.length_drop, getRandomIndices_length]

theorem cat2000_category_counts_witness :
    ((cat2000TrainIndices (fun _ => 0)).filter (inBlock 0)).length = 80
    ∧ ((cat2000ValidIndices (fun _ => 0)).filter (inBlock 0)).length = 20
    ∧ (∀ x ∈ cat2000TrainIndices (fun _ => 0),
        x ∉ cat2000ValidIndices (fun _ => 0)) :=
  cat2000_category_counts (fun _ => 0) 0 (by decide)

/-- C6 counterexample: the claimed example — one zipped pair with expected
count 2 ("the pair counted as two files") — does not pass: the assertion
compares the number of zipped pairs (1) with `n_total_files` (2) and
fails. -/
theorem check_consistency_pair_count_cex :
    checkConsistency (List.zip ["img_001.jpg"] ["img_001_fixMap.png"]) 2
      = Except.error (PyError.assertionError "Files are missing") := by
  decide

theorem forM_nil_checkNameTuple :
    ([] : List (String × String)).forM checkNameTuple = Except.ok () := rfl

theorem exceptBind_ok {ε α β : Type} (a : α) (f : α → Except ε β) :
    (Except.ok a >>= f : Except ε β) = f a := rfl

theorem exceptBind_error {ε α β : Type} (e : ε) (f : α → Except ε β) :
    (Except.error e >>= f : Except ε β) = Except.error e := rfl

theorem checkConsistency_eq (z : List (String × String)) (n : Nat) :
    checkConsistency z n
      = if z.length = n then Except.ok ()
        else Except.error (PyError.assertionError "Files are missing") := by
  by_cases h : z.length = n
  · simp only [checkConsistency, if_pos h]
    rfl
  · simp only [checkConsistency, if_neg h]
    rfl

/-- C6 amended: the consistency check fails with the count-mismatch error if
and only if the number of zipped stimulus/ground-truth pairs differs from the
expected count (each pair counts once, not twice); in particular the paired
lists `["img_001.jpg"]` / `["img_001_fixMap.png"]` pass with expected count
1. -/
theorem check_consistency_count_iff :
    (∀ (zipped : List (String × String)) (nTotal : Nat),
      checkConsistency zipped nTotal
          = Except.error (PyError.assertionError "Files are missing")
        ↔ zipped.length ≠ nTotal)
    ∧ checkConsistency (List.zip ["img_001.jpg"] ["img_001_fixMap.png"]) 1
        = Except.ok () := by
  constructor
  · intro zipped nTotal
    rw [checkConsistency_eq]
    by_cases h : zipped.length = nTotal <;> simp [h]
  · decide

/-- C7: the consistency check never raises the name-mismatch error, because
`len(list(zipped_file_lists))` exhausts the zip iterator before the name
loop runs: the mismatched pair ("img_001.jpg", "img_002_fixMap.png") passes
the check with expected count 1, even though the names do not reduce to an
identical string and the per-pair name check would have rejected the pair
had it run. -/
theorem check_consistency_name_check_dead :
    checkConsistency (List.zip ["img_001.jpg"] ["img_002_fixMap.png"]) 1
      = Except.ok ()
    ∧ stripName "img_001.jpg" ≠ stripName "img_002_fixMap.png"
    ∧ checkNameTuple ("img_001.jpg", "img_002_fixMap.png")
        = Except.error (PyError.assertionError "File name mismatch") := by
  decide

theorem batchListAux_flatten (k : Nat) (hk : 0 < k) :
    ∀ (fuel : Nat) (l : List Nat), l.length ≤ fuel →
      (batchListAux k fuel l).flatten = l := by
  intro fuel
  induction fuel with
  | zero =>
    intro l hl
    have hnil : l = [] := List.eq_nil_of_length_eq_zero (by omega)
    subst hnil
    rfl
  | succ fuel ih =>
    intro l hl
    cases l with
    | nil => rfl
    | cons a t =>
      simp only [batchListAux, List.isEmpty_cons, Bool.false_eq_true,
        if_false, List.flatten_cons]
      rw [ih ((a :: t).drop k) (by simp [List.length_drop] at hl ⊢; omega)]
      exact List.take_append_drop k (a :: t)

/-- C8: the batch pipeline of `_fetch_dataset` never reorders samples in any
mode — the shuffle block is commented out in the source, so the output
batches concatenate back to the input frame sequence for the training flag
and the inference flag alike, and the flag has no effect at all. The
inference half of the claim (order preserved) holds; the training half
(shuffle before batching) does not happen. -/
theorem fetch_dataset_batches_order (frames : List Nat) (shuffleFlag : Bool) :
    (fetchDatasetBatches frames shuffleFlag).flatten = frames
    ∧ fetchDatasetBatches frames shuffleFlag = fetchDatasetBatches frames true :=
  ⟨batchListAux_flatten 100 (by omega) frames.length frames (le_refl _), rfl⟩

/-- C9 counterexample: with a decoder for which "bad.avi" yields zero frames,
the inference run over ["a.avi", "bad.avi", "c.avi"] terminates with the
uncaught `ValueError` raised while decoding "bad.avi" — it does not skip the
bad file and proceed to "c.avi". -/
theorem test_model_abort_cex :
    testModelRun cexDecode ["a.avi", "bad.avi", "c.avi"]
      = Except.error (PyError.valueError "need at least one array to stack") := by
  decide

/-- C9 amended: a decode failure (a file that cannot be opened or yields zero
frames) is not isolated to that file: the inference loop catches only the
end-of-dataset `OutOfRangeError`, so the `ValueError` raised while stacking
the empty frame list aborts the entire run at the failing file and the
remaining input files are not processed. -/
theorem test_model_decode_aborts_run (decode : String → List Nat)
    (pre post : List String) (f : String)
    (hpre : ∀ g ∈ pre, decode g ≠ []) (hf : decode f = []) :
    testModelRun decode (pre ++ f :: post)
      = Except.error (PyError.valueError "need at least one array to stack") := by
  induction pre with
  | nil =>
    simp only [List.nil_append, testModelRun, parseVideoFrames, hf]
    rfl
  | cons g pre ih =>
    have hg : decode g ≠ [] := hpre g (List.mem_cons_self g pre)
    obtain ⟨a, t, hdg⟩ : ∃ a t, decode g = a :: t := by
      cases hdg : decode g with
      | nil => exact absurd hdg hg
      | cons a t => exact ⟨a, t, rfl⟩
    have hrest := ih (fun q hq => hpre q (List.mem_cons_of_mem g hq))
    simp only [List.cons_append, testModelRun, parseVideoFrames, hdg,
      List.append_eq]
    rw [exceptBind_ok, hrest, exceptBind_error]

theorem test_model_decode_aborts_run_witness :
    testModelRun cexDecode (["a.avi"] ++ "bad.avi" :: ["c.avi"])
      = Except.error (PyError.valueError "need at least one array to stack") :=
  test_model_decode_aborts_run cexDecode ["a.avi"] ["c.avi"] "bad.avi"
    (by decide) (by decide)

theorem getFileList_cases (found : List String) :
    getFileList found = Except.error (PyError.fileNotFound "No data was found")
    ∨ ∃ l, getFileList found = Except.ok l := by
  unfold getFileList
  by_cases h : (sortStrings found).isEmpty
  · left
    rw [if_pos h]
  · right
    exact ⟨_, by rw [if_neg h]⟩

theorem checkConsistency_cases (z : List (String × String)) (n : Nat) :
    checkConsistency z n = Except.error (PyError.assertionError "Files are missing")
    ∨ checkConsistency z n = Except.ok () := by
  rw [checkConsistency_eq]
  by_cases h : z.length = n
  · right
    rw [if_pos h]
  · left
    rw [if_neg h]

theorem callFetchDataset3_eq (files : List String × List String) (ts : ImgSize)
    (sh : Bool) :
    callFetchDataset3 files ts sh
      = Except.error (PyError.typeError
          "missing 1 required positional argument: video_file") := rfl

theorem loadDataSALICON_err (tX tY vX vY : List String) (ts : ImgSize) :
    loadDataSALICON tX tY vX vY ts
        = Except.error (PyError.fileNotFound "No data was found")
    ∨ loadDataSALICON tX tY vX vY ts
        = Except.error (PyError.assertionError "Files are missing")
    ∨ loadDataSALICON tX tY vX vY ts
        = Except.error (PyError.typeError
            "missing 1 required positional argument: video_file") := by
  rcases getFileList_cases tX with h1 | ⟨l1, h1⟩
  · left
    simp only [loadDataSALICON, h1, exceptBind_error]
  rcases getFileList_cases tY with h2 | ⟨l2, h2⟩
  · left
    simp only [loadDataSALICON, h1, h2, exceptBind_ok, exceptBind_error]
  rcases checkConsistency_cases (List.zip l1 l2) 10000 with h3 | h3
  · right
    left
    simp only [loadDataSALICON, h1, h2, h3, exceptBind_ok, exceptBind_error]
  · right
    right
    simp only [loadDataSALICON, h1, h2, h3, exceptBind_ok]
    rw [callFetchDataset3_eq, exceptBind_error]

theorem loadDataMIT1003_err (d : Nat → Nat) (sx sy : List String) (ts : ImgSize) :
    loadDataMIT1003 d sx sy ts
        = Except.error (PyError.fileNotFound "No data was found")
    ∨ loadDataMIT1003 d sx sy ts
        = Except.error (PyError.assertionError "Files are missing")
    ∨ loadDataMIT1003 d sx sy ts
        = Except.error (PyError.typeError
            "missing 1 required positional argument: video_file") := by
  rcases getFileList_cases sx with h1 | ⟨l1, h1⟩
  · left
    simp only [loadDataMIT1003, h1, exceptBind_error]
  rcases getFileList_cases sy with h2 | ⟨l2, h2⟩
  · left
    simp only [loadDataMIT1003, h1, h2, exceptBind_ok, exceptBind_error]
  rcases checkConsistency_cases (List.zip l1 l2) 1003 with h3 | h3
  · right
    left
    simp only [loadDataMIT1003, h1, h2, h3, exceptBind_ok, exceptBind_error]
  · right
    right
    simp only [loadDataMIT1003, h1, h2, h3, exceptBind_ok]
    rw [callFetchDataset3_eq, exceptBind_error]

theorem loadDataCAT2000_err (d : Nat → Nat) (sx sy : List String) (ts : ImgSize) :
    loadDataCAT2000 d sx sy ts
        = Except.error (PyError.fileNotFound "No data was found")
    ∨ loadDataCAT2000 d sx sy ts
        = Except.error (PyError.assertionError "Files are missing")
    ∨ loadDataCAT2000 d sx sy ts
        = Except.error (PyError.typeError
            "missing 1 required positional argument: video_file") := by
  rcases getFileList_cases sx with h1 | ⟨l1, h1⟩
  · left
    simp only [loadDataCAT2000, h1, exceptBind_error]
  rcases getFileList_cases sy with h2 | ⟨l2, h2⟩
  · left
    simp only [loadDataCAT2000, h1, h2, exceptBind_ok, exceptBind_error]
  rcases checkConsistency_cases (List.zip l1 l2) 2000 with h3 | h3
  · right
    left
    simp only [loadDataCAT2000, h1, h2, h3, exceptBind_ok, exceptBind_error]
  · right
    right
    simp only [loadDataCAT2000, h1, h2, h3, exceptBind_ok]
    rw [callFetchDataset3_eq, exceptBind_error]

/-- C10: every training-phase `load_data` (SALICON, MIT1003, CAT2000) can
only end in an error — the empty-directory `FileNotFoundError`, the
count-mismatch `AssertionError`, or, once the file lists pass those checks,
the `TypeError` from calling `_fetch_dataset` with 3 positional arguments
when it requires 4 (`video_file` has no default) — so it never returns a
(train_set, valid_set) pair; and that call itself always raises the
missing-`video_file` `TypeError`. -/
theorem train_load_data_missing_arg :
    (∀ (tX tY vX vY : List String) (ts : ImgSize),
      loadDataSALICON tX tY vX vY ts
          = Except.error (PyError.fileNotFound "No data was found")
      ∨ loadDataSALICON tX tY vX vY ts
          = Except.error (PyError.assertionError "Files are missing")
      ∨ loadDataSALICON tX tY vX vY ts
          = Except.error (PyError.typeError
              "missing 1 required positional argument: video_file"))
    ∧ (∀ (d : Nat → Nat) (sx sy : List String) (ts : ImgSize),
      loadDataMIT1003 d sx sy ts
          = Except.error (PyError.fileNotFound "No data was found")
      ∨ loadDataMIT1003 d sx sy ts
          = Except.error (PyError.assertionError "Files are missing")
      ∨ loadDataMIT1003 d sx sy ts
          = Except.error (PyError.typeError
              "missing 1 required positional argument: video_file"))
    ∧ (∀ (d : Nat → Nat) (sx sy : List String) (ts : ImgSize),
      loadDataCAT2000 d sx sy ts
          = Except.error (PyError.fileNotFound "No data was found")
      ∨ loadDataCAT2000 d sx sy ts
          = Except.error (PyError.assertionError "Files are missing")
      ∨ loadDataCAT2000 d sx sy ts
          = Except.error (PyError.typeError
              "missing 1 required positional argument: video_file"))
    ∧ (∀ (files : List String × List String) (ts : ImgSize) (sh : Bool),
      callFetchDataset3 files ts sh
        = Except.error (PyError.typeError
            "missing 1 required positional argument: video_file")) :=
  ⟨loadDataSALICON_err, loadDataMIT1003_err, loadDataCAT2000_err,
   callFetchDataset3_eq⟩
